import Mathlib

/-!
Verification development for the LocalRecall MCP server (futuretea/localrecall-mcp-server).

The development shallowly embeds the tool-gateway core of the Go sources:

* `pkg/toolset/handler/params.go` — the optional/required parameter accessors
  (`GetStringParam`, `GetIntParam`, `RequireStringParam`);
* `pkg/client/localrecall.go` — the response normalizer `parseAPIResponse` and
  the typed-field extractors (`getDataMap`, `getStringField`, `getIntField`,
  `getMapArray`) together with the search request construction;
* the `mcp` server package — `shouldEnableTool`, the parameter policy applied
  by `configureTool` before a handler runs, and `NewTextResult` with the
  dispatch wrapper of `registerTool`;
* the `localrecall` toolset package — `buildCollectionTool` and `GetTools`
  (the data-driven catalog variant), plus the request-building phase of
  `SearchHandler` and `AddDocumentHandler`.

Go `interface` values that travel through `map[string]interface` parameter
maps and decoded JSON are modelled by the inductive `GoValue`; Go maps are
modelled as association lists without repeated keys (Go map iteration order
never matters to the embedded code, only lookup and assignment do). Go
`float64` numbers are modelled as rationals, with `int(f)` modelled as
truncation toward zero. A raw HTTP response body is abstracted by the only
two attributes the embedded code reads from it: its byte length and its JSON
parse result (`none` when the bytes are not valid JSON).
-/

/-- A Go dynamic value as it occurs in `map[string]interface` parameter maps
and in decoded JSON (`encoding/json` decodes every JSON number to `float64`,
every object to `map[string]interface`, every array to a slice). The `intV`
and `int64V` constructors cover values a Go caller stores directly, which
`GetIntParam` inspects. -/
inductive GoValue where
  | str (s : String)
  | intV (n : Int)
  | int64V (n : Int)
  | float64V (q : Rat)
  | boolV (b : Bool)
  | nullV
  | arrV (xs : List GoValue)
  | objV (fields : List (String × GoValue))

/-- A Go string-keyed map, modelled as an association list without repeated
keys. -/
abbrev Params := List (String × GoValue)

/-- Go map read `v, ok := m[key]`: `some v` when present, `none` otherwise. -/
def pLookup : Params → String → Option GoValue
  | [], _ => none
  | (k, v) :: rest, key => if k = key then some v else pLookup rest key

/-- Go map assignment `m[key] = v`: replaces the binding when the key is
present, adds it otherwise. -/
def pInsert : Params → String → GoValue → Params
  | [], key, v => [(key, v)]
  | (k, w) :: rest, key, v =>
      if k = key then (key, v) :: rest else (k, w) :: pInsert rest key v

/-- Go `int(f)` for a `float64`: truncation toward zero. -/
def goTrunc (q : Rat) : Int := Int.tdiv q.num (q.den : Int)

/-- Go `fmt.Sscanf(s, stringToIntVerb, intVal)` as `GetIntParam` uses it:
skip leading white space, read an optional sign and a non-empty digit run,
ignore the rest of the string; `none` when no digit is found. -/
def goSscanInt (s : String) : Option Int :=
  let cs := s.toList.dropWhile Char.isWhitespace
  let signed : Int × List Char :=
    match cs with
    | '-' :: r => (-1, r)
    | '+' :: r => (1, r)
    | r => (1, r)
  let digits := signed.2.takeWhile Char.isDigit
  if digits.isEmpty then none
  else some (signed.1 * digits.foldl (fun acc c => acc * 10 + ((c.toNat - 48 : Nat) : Int)) 0)

/-! ## pkg/toolset/handler/params.go -/

/-- GetStringParam of `pkg/toolset/handler/params.go`: the value when the key
is present and holds a string, the caller-supplied default otherwise. -/
def GetStringParam (params : Params) (key defaultValue : String) : String :=
  match pLookup params key with
  | some (.str s) => s
  | _ => defaultValue

/-- GetIntParam of `pkg/toolset/handler/params.go`: the value when the key is
present and holds an int, int64 or float64 (converted by truncation), or a
string from which an integer can be scanned; the caller-supplied default
otherwise. -/
def GetIntParam (params : Params) (key : String) (defaultValue : Int) : Int :=
  match pLookup params key with
  | some (.intV n) => n
  | some (.int64V n) => n
  | some (.float64V q) => goTrunc q
  | some (.str s) =>
      match goSscanInt s with
      | some n => n
      | none => defaultValue
  | _ => defaultValue

/-- RequireStringParam of `pkg/toolset/handler/params.go`: an error when the
key is absent, the value is not a string, or the string is empty. -/
def RequireStringParam (params : Params) (key : String) : Except String String :=
  match pLookup params key with
  | none => .error ("missing required parameter: " ++ key)
  | some (.str s) =>
      if s = "" then .error ("parameter " ++ key ++ " cannot be empty")
      else .ok s
  | some _ => .error ("parameter " ++ key ++ " must be a string")

/-- Modelled from the spec: the accessor `GetFloat64Param` of the current
`pkg/toolset/handler` is absent from the source files (only its caller
`SearchHandler` is present). Modelled in analogy with `GetIntParam`: a
missing or non-numeric optional value yields the caller-supplied default. -/
def GetFloat64Param (params : Params) (key : String) (defaultValue : Rat) : Rat :=
  match pLookup params key with
  | some (.float64V q) => q
  | some (.intV n) => (n : Rat)
  | some (.int64V n) => (n : Rat)
  | _ => defaultValue

/-- Modelled from the spec: the accessor `GetStringMapParam` of the current
`pkg/toolset/handler` is absent from the source files (only its caller
`SearchHandler` is present). It extracts the string-valued entries of an
object parameter (the metadata key-value filters of §4.1) and yields the
empty map when the key is absent or not an object. -/
def GetStringMapParam (params : Params) (key : String) : List (String × String) :=
  match pLookup params key with
  | some (.objV fields) =>
      fields.filterMap fun kv =>
        match kv.2 with
        | .str s => some (kv.1, s)
        | _ => none
  | _ => []

/-! ## pkg/client/localrecall.go — response envelope and normalizer -/

/-- APIError of `pkg/client/localrecall.go`: `code`, `message` and optional
`details` of an application-level error. -/
structure APIError where
  code : String
  message : String
  details : String

/-- APIResponse of `pkg/client/localrecall.go`: the standard envelope
`success/message/data/error`. `data` is `none` when the field is absent or
JSON null (a Go nil interface), `error` is `none` for an absent or null
pointer. -/
structure APIResponse where
  success : Bool
  message : String
  data : Option GoValue
  error : Option APIError

/-- A raw HTTP response body, abstracted by the two attributes the embedded
code reads: its byte length and its JSON parse result (`none` when the bytes
are not valid JSON). -/
structure Body where
  length : Nat
  json : Option GoValue

/-- Decoding of one string-typed struct field by `encoding/json`: absent or
null leaves the zero value, a string is taken, any other value is a decode
error (`none`). -/
def decodeStringField (fields : List (String × GoValue)) (key : String) : Option String :=
  match pLookup fields key with
  | none => some ""
  | some (.str s) => some s
  | some .nullV => some ""
  | some _ => none

/-- Decoding of one bool-typed struct field by `encoding/json`, with the same
tolerance as `decodeStringField`. -/
def decodeBoolField (fields : List (String × GoValue)) (key : String) : Option Bool :=
  match pLookup fields key with
  | none => some false
  | some (.boolV b) => some b
  | some .nullV => some false
  | some _ => none

/-- Decoding of the `error` field into an optional APIError pointer: null is
a nil pointer, an object is decoded field by field, anything else is a
decode error. -/
def decodeAPIError : GoValue → Option (Option APIError)
  | .nullV => some none
  | .objV fields => do
      let code ← decodeStringField fields "code"
      let message ← decodeStringField fields "message"
      let details ← decodeStringField fields "details"
      some (some ⟨code, message, details⟩)
  | _ => none

/-- Go `json.Unmarshal` of a JSON document into the APIResponse struct:
succeeds on an object (unknown keys ignored, each known key decoded with Go
tolerance) or on null (zero value); fails on any other document or on a
type-mismatched known field. -/
def decodeAPIResponse : GoValue → Option APIResponse
  | .nullV => some ⟨false, "", none, none⟩
  | .objV fields => do
      let success ← decodeBoolField fields "success"
      let message ← decodeStringField fields "message"
      let data :=
        match pLookup fields "data" with
        | none => none
        | some .nullV => none
        | some v => some v
      let err ←
        match pLookup fields "error" with
        | none => pure none
        | some v => decodeAPIError v
      some ⟨success, message, data, err⟩
  | _ => none

/-- Decoding of a raw body into the envelope: `none` when the bytes are not
valid JSON or the document does not unmarshal into APIResponse. -/
def bodyDecode (body : Body) : Option APIResponse :=
  match body.json with
  | none => none
  | some v => decodeAPIResponse v

/-- Errors of the response normalizer, kept structural so each theorem shows
exactly what the error carries. `decodeFailure` carries the HTTP status and
the body length only — never the body itself. -/
inductive ParseError where
  | decodeFailure (status : Int) (bodyLength : Nat)
  | invalidResponse
  | apiError (msg : String)
  | unexpectedDataFormat

/-- Error text of a failed envelope: `code: message` plus optional
`- details`, or `unknown error` when the envelope has no error object. -/
def apiErrorMessage : Option APIError → String
  | none => "unknown error"
  | some e =>
      e.code ++ ": " ++ e.message ++ (if e.details ≠ "" then " - " ++ e.details else "")

/-- parseAPIResponse of `pkg/client/localrecall.go`: decode the body; a
decode failure carries the status code and the body length; a decoded
envelope with `success` false, no error and no data is a structurally
invalid response; any other `success` false envelope is an application
error; otherwise the decoded envelope is returned. -/
def parseAPIResponse (body : Body) (statusCode : Int) : Except ParseError APIResponse :=
  match bodyDecode body with
  | none => .error (.decodeFailure statusCode body.length)
  | some apiResp =>
      if apiResp.success = false ∧ apiResp.error.isNone ∧ apiResp.data.isNone then
        .error .invalidResponse
      else if apiResp.success = false then
        .error (.apiError (apiErrorMessage apiResp.error))
      else
        .ok apiResp

/-! ## pkg/client/localrecall.go — typed field extraction and search -/

/-- getDataMap of `pkg/client/localrecall.go`: the envelope `data` as an
object, or a data-format error. -/
def getDataMap (resp : APIResponse) : Option (List (String × GoValue)) :=
  match resp.data with
  | some (.objV m) => some m
  | _ => none

/-- getStringField of `pkg/client/localrecall.go`: tolerant string read,
empty string when absent or not a string. -/
def getStringField (data : List (String × GoValue)) (field : String) : String :=
  match pLookup data field with
  | some (.str s) => s
  | _ => ""

/-- getIntField of `pkg/client/localrecall.go`: tolerant int read from a
decoded JSON number (a Go float64), zero when absent or not a number. -/
def getIntField (data : List (String × GoValue)) (field : String) : Int :=
  match pLookup data field with
  | some (.float64V q) => goTrunc q
  | _ => 0

/-- getMapArray of `pkg/client/localrecall.go`: the object elements of an
array field, in order; non-object elements are skipped and a missing or
non-array field yields the empty list. -/
def getMapArray (data : List (String × GoValue)) (field : String) : List (List (String × GoValue)) :=
  match pLookup data field with
  | some (.arrV xs) =>
      xs.filterMap fun v =>
        match v with
        | .objV m => some m
        | _ => none
  | _ => []

/-- SearchResult of `pkg/client/localrecall.go`. -/
structure SearchResult where
  query : String
  maxResults : Int
  results : List (List (String × GoValue))
  count : Int

/-- Optional search refinements of the current client (`min_similarity`
threshold and metadata filters, §4.1). -/
structure SearchOptions where
  minSimilarity : Rat
  filters : List (String × String)

/-- The outbound search request the client builds: target collection, body
fields, and the optional refinements included only when present. -/
structure SearchRequest where
  collection : String
  query : String
  maxResults : Int
  opts : Option SearchOptions

/-- Search request construction of `pkg/client/localrecall.go` (`Search`,
also the entry into the current `SearchWithOptions`): a zero `max_results`
is replaced by the default 5 before the body is serialized. -/
def clientSearchRequest (collectionName query : String) (maxResults : Int)
    (opts : Option SearchOptions) : SearchRequest :=
  let m := if maxResults = 0 then 5 else maxResults
  { collection := collectionName, query := query, maxResults := m, opts := opts }

/-- Record elements of a bare-array search response: the object elements, in
order. -/
def collectRecords (items : List GoValue) : List (List (String × GoValue)) :=
  items.filterMap fun v =>
    match v with
    | .objV m => some m
    | _ => none

/-- Envelope-shaped search result of `pkg/client/localrecall.go` (`Search`):
every field is read tolerantly from the envelope `data` object, and `count`
is taken verbatim from the `count` field. -/
def searchEnvelopeResult (data : List (String × GoValue)) : SearchResult :=
  { query := getStringField data "query"
    maxResults := getIntField data "max_results"
    results := getMapArray data "results"
    count := getIntField data "count" }

/-- Modelled from the spec: the current client search response handling
(`SearchWithOptions` of `pkg/client`) is absent from the source files — only
its tests and its caller `SearchHandler` are present. Per §4.1 and §8 the
client detects the response shape: a bare JSON array of records yields a
result whose `count` equals the length of its `results`, while any other
body is decoded through `parseAPIResponse` and the envelope `data` fields
(including its explicit `count`) are taken verbatim. -/
def searchDecodeBody (query : String) (maxResults : Int) (body : Body)
    (status : Int) : Except ParseError SearchResult :=
  match body.json with
  | some (.arrV items) =>
      let results := collectRecords items
      .ok { query := query, maxResults := maxResults, results := results,
            count := (results.length : Int) }
  | _ =>
      match parseAPIResponse body status with
      | .error e => .error e
      | .ok resp =>
          match getDataMap resp with
          | none => .error .unexpectedDataFormat
          | some data => .ok (searchEnvelopeResult data)

/-! ## mcp server package — enablement, parameter policy, result wrapping -/

/-- The configuration fields the mcp server package reads (StaticConfig of
`pkg/core/config`). -/
structure StaticConfig where
  listOutput : String
  localRecallCollection : String
  enabledTools : List String
  disabledTools : List String

/-- shouldEnableTool of the mcp server package: a name in the disabled list
is rejected outright; with a non-empty enabled list only its members pass;
otherwise the tool is enabled. -/
def shouldEnableTool (cfg : StaticConfig) (toolName : String) : Bool :=
  if cfg.disabledTools.contains toolName then false
  else if 0 < cfg.enabledTools.length then cfg.enabledTools.contains toolName
  else true

/-- First statement of the `configureTool` parameter policy in the current
mcp server package: inject the configured default output format when the
caller supplied none. -/
def configureFormat (cfg : StaticConfig) (params : Params) : Params :=
  if (pLookup params "format").isNone ∧ cfg.listOutput ≠ "" then
    pInsert params "format" (.str cfg.listOutput)
  else params

/-- Second statement of the `configureTool` parameter policy in the current
mcp server package: enforcing collection isolation, always override
`collection_name` with the pinned collection when one is configured. -/
def configureCollection (cfg : StaticConfig) (params : Params) : Params :=
  if cfg.localRecallCollection ≠ "" then
    pInsert params "collection_name" (.str cfg.localRecallCollection)
  else params

/-- Parameter policy of `configureTool` in the current mcp server package:
the two statements above in program order. The result is the parameter map
handed to the tool handler. -/
def configureParams (cfg : StaticConfig) (params : Params) : Params :=
  configureCollection cfg (configureFormat cfg params)

/-- TextContent of the tool-call protocol: a typed text payload. -/
structure TextContent where
  contentType : String
  text : String

/-- CallToolResult of the tool-call protocol: a content list plus the flag
marking an error result. -/
structure CallToolResult where
  isError : Bool
  content : List TextContent

/-- NewTextResult of the mcp server package: a handler error becomes a
flagged text result carrying the error message; a handler success becomes an
unflagged text result carrying the output. -/
def NewTextResult (content : String) (err : Option String) : CallToolResult :=
  match err with
  | some e => { isError := true, content := [{ contentType := "text", text := e }] }
  | none => { isError := false, content := [{ contentType := "text", text := content }] }

/-- Dispatch wrapper of `registerTool` in the mcp server package: the handler
outcome (output string and optional error) is wrapped by `NewTextResult` and
returned with a nil protocol-level error, whatever the handler did. -/
def dispatchToolCall (handler : Params → String × Option String) (params : Params) :
    CallToolResult × Option String :=
  let r := handler params
  (NewTextResult r.1 r.2, none)

/-! ## localrecall toolset package — handler request-building phases -/

/-- Outcome of a handler run up to its first effect: a parameter error
returned before any remote interaction, or the remote request it issues. -/
inductive HandlerStep (α : Type) where
  | paramError (msg : String)
  | remoteCall (req : α)

/-- Request-building phase of `SearchHandler` in
`pkg/toolset/localrecall/handlers.go`: an empty or missing `query` is a
parameter error; otherwise the collection name is read with an empty-string
default, `max_results` with default 5, the optional refinements are attached
only when present, and the client request is built. -/
def SearchHandlerRequest (params : Params) : HandlerStep SearchRequest :=
  let query := GetStringParam params "query" ""
  if query = "" then .paramError "query parameter is required"
  else
    let collectionName := GetStringParam params "collection_name" ""
    let maxResults := GetIntParam params "max_results" 5
    let minSim := GetFloat64Param params "min_similarity" 0
    let filters := GetStringMapParam params "filters"
    let opts : Option SearchOptions :=
      if 0 < minSim ∨ filters ≠ [] then some ⟨minSim, filters⟩ else none
    .remoteCall (clientSearchRequest collectionName query maxResults opts)

/-- First effect of `AddDocumentHandler`: a parameter error, a local file
read (when `file_path` is used), or the remote multipart upload (when
`file_content` is used). -/
inductive AddDocStep where
  | paramError (msg : String)
  | readLocalFile (collection filename path : String)
  | remoteUpload (collection filename content : String)

/-- Request-building phase of `AddDocumentHandler` in
`pkg/toolset/localrecall/handlers.go`: the collection name is read with an
empty-string default, `filename` is required, then exactly one of
`file_path` and `file_content` must be a non-empty string — both empty and
both set are parameter errors raised before any file read or remote call. -/
def AddDocumentHandlerStep (params : Params) : AddDocStep :=
  let collectionName := GetStringParam params "collection_name" ""
  match RequireStringParam params "filename" with
  | .error e => .paramError e
  | .ok filename =>
      let filePath := GetStringParam params "file_path" ""
      let fileContent := GetStringParam params "file_content" ""
      if filePath = "" ∧ fileContent = "" then
        .paramError "either file_path or file_content must be provided"
      else if filePath ≠ "" ∧ fileContent ≠ "" then
        .paramError "cannot specify both file_path and file_content"
      else if filePath ≠ "" then
        .readLocalFile collectionName filename filePath
      else
        .remoteUpload collectionName filename fileContent

/-! ## localrecall toolset package — tool catalog (buildCollectionTool, GetTools) -/

/-- Handler references of the catalog, one per tool handler function. -/
inductive HandlerId where
  | search
  | addDocument
  | listFiles
  | deleteEntry
  | getEntryContent
  | registerSource
  | removeSource
  | listSources
  | reindex
  | createCollection
  | resetCollection
  | listCollections
  deriving DecidableEq

/-- ToolInputSchema of the tool protocol: a JSON-schema object with named
property schemas and a required-parameter list. -/
structure ToolInputSchema where
  schemaType : String
  properties : List (String × GoValue)
  required : List String

/-- Tool of the tool protocol: name, description and parameter schema. -/
structure Tool where
  name : String
  description : String
  inputSchema : ToolInputSchema

/-- ServerTool of `pkg/toolset`: a tool paired with its handler. -/
structure ServerTool where
  tool : Tool
  handler : HandlerId

/-- The helper `prop` of the localrecall toolset package: a JSON schema
property definition. -/
def schemaProp (typ desc : String) : GoValue :=
  .objV [("type", .str typ), ("description", .str desc)]

/-- collectionToolDef of the localrecall toolset package: a collection-scoped
tool described without its `collection_name` parameter. -/
structure CollectionToolDef where
  name : String
  descDefault : String
  descGeneric : String
  handler : HandlerId
  props : List (String × GoValue) := []
  required : List String := []

/-- buildCollectionTool of the localrecall toolset package: with a pinned
default collection the description embeds the collection name and the
`collection_name` parameter is not exposed; without one the description is
generic, `collection_name` is added to the properties and prepended to the
required list. -/
def buildCollectionTool (defaultCollection : String) (d : CollectionToolDef) : ServerTool :=
  let isolated := defaultCollection ≠ ""
  { tool :=
      { name := d.name
        description :=
          if isolated then d.descDefault ++ " \x27" ++ defaultCollection ++ "\x27"
          else d.descGeneric
        inputSchema :=
          { schemaType := "object"
            properties :=
              if isolated then d.props
              else pInsert d.props "collection_name"
                     (schemaProp "string" "The name of the collection")
            required :=
              if isolated then d.required
              else "collection_name" :: d.required } }
    handler := d.handler }

/-- The nine collection-scoped tool definitions of `GetTools` in the
localrecall toolset package, in catalog order. -/
def collectionToolDefs : List CollectionToolDef :=
  [ { name := "search"
      descDefault := "Search content in LocalRecall collection"
      descGeneric := "Search content in a LocalRecall collection"
      handler := .search
      props :=
        [ ("query", schemaProp "string" "The search query")
        , ("max_results", schemaProp "number" "Maximum number of results to return (default: 5)")
        , ("min_similarity", schemaProp "number" "Minimum cosine similarity threshold (0-1). Results below this score are filtered out. 0 or omit to disable.")
        , ("filters", GoValue.objV
            [ ("type", .str "object")
            , ("description", .str "Metadata key-value filters. Only results whose metadata contains all specified key-value pairs are returned.")
            , ("additionalProperties", .objV [("type", .str "string")]) ]) ]
      required := ["query"] }
  , { name := "add_document"
      descDefault := "Add a document to LocalRecall collection"
      descGeneric := "Add a document to a LocalRecall collection"
      handler := .addDocument
      props :=
        [ ("filename", schemaProp "string" "The filename for the document")
        , ("file_path", schemaProp "string" "Path to the file to upload (mutually exclusive with file_content)")
        , ("file_content", schemaProp "string" "File content as string (mutually exclusive with file_path)") ]
      required := ["filename"] }
  , { name := "list_files"
      descDefault := "List files in LocalRecall collection"
      descGeneric := "List files in a LocalRecall collection"
      handler := .listFiles }
  , { name := "delete_entry"
      descDefault := "Delete an entry from LocalRecall collection"
      descGeneric := "Delete an entry from a LocalRecall collection"
      handler := .deleteEntry
      props := [("entry", schemaProp "string" "The filename of the entry to delete")]
      required := ["entry"] }
  , { name := "get_entry_content"
      descDefault := "Get the content of a specific entry in LocalRecall collection"
      descGeneric := "Get the content of a specific entry in a LocalRecall collection"
      handler := .getEntryContent
      props := [("entry", schemaProp "string" "The filename of the entry to retrieve")]
      required := ["entry"] }
  , { name := "register_source"
      descDefault := "Register an external source for LocalRecall collection"
      descGeneric := "Register an external source for a LocalRecall collection"
      handler := .registerSource
      props :=
        [ ("url", schemaProp "string" "The URL of the external source")
        , ("update_interval", schemaProp "number" "Update interval in seconds (0 or omit for no auto-update)") ]
      required := ["url"] }
  , { name := "remove_source"
      descDefault := "Remove an external source from LocalRecall collection"
      descGeneric := "Remove an external source from a LocalRecall collection"
      handler := .removeSource
      props := [("url", schemaProp "string" "The URL of the external source to remove")]
      required := ["url"] }
  , { name := "list_sources"
      descDefault := "List external sources for LocalRecall collection"
      descGeneric := "List external sources for a LocalRecall collection"
      handler := .listSources }
  , { name := "reindex"
      descDefault := "Re-chunk and re-index all documents in LocalRecall collection"
      descGeneric := "Re-chunk and re-index all documents in a LocalRecall collection using the current chunking strategy"
      handler := .reindex } ]

/-- The three collection-independent administrative tools of `GetTools`. -/
def adminTools : List ServerTool :=
  [ { tool :=
        { name := "create_collection"
          description := "Create a new collection in LocalRecall"
          inputSchema :=
            { schemaType := "object"
              properties := [("name", schemaProp "string" "The name of the collection to create")]
              required := ["name"] } }
      handler := .createCollection }
  , { tool :=
        { name := "reset_collection"
          description := "Reset (clear) a collection in LocalRecall"
          inputSchema :=
            { schemaType := "object"
              properties := [("name", schemaProp "string" "The name of the collection to reset")]
              required := ["name"] } }
      handler := .resetCollection }
  , { tool :=
        { name := "list_collections"
          description := "List all collections in LocalRecall"
          inputSchema :=
            { schemaType := "object"
              properties := []
              required := [] } }
      handler := .listCollections } ]

/-- GetTools of the localrecall toolset package: the nine collection-scoped
tools built through `buildCollectionTool`, followed by the three
administrative tools exactly when no default collection is configured. -/
def GetTools (defaultCollection : String) : List ServerTool :=
  (collectionToolDefs.map (buildCollectionTool defaultCollection)) ++
    (if defaultCollection = "" then adminTools else [])

/-- Names of the three administrative tools. -/
def adminToolNames : List String :=
  ["create_collection", "reset_collection", "list_collections"]

/-! ## Map lemmas -/

theorem pLookup_pInsert_self : ∀ (ps : Params) (key : String) (v : GoValue),
    pLookup (pInsert ps key v) key = some v
  | [], key, v => by simp [pInsert, pLookup]
  | (k, w) :: rest, key, v => by
      by_cases h : k = key
      · simp [pInsert, pLookup, h]
      · simp [pInsert, pLookup, h, pLookup_pInsert_self rest key v]

theorem pLookup_pInsert_ne : ∀ (ps : Params) (key key2 : String) (v : GoValue),
    key ≠ key2 → pLookup (pInsert ps key v) key2 = pLookup ps key2
  | [], key, key2, v, h => by simp [pInsert, pLookup, h]
  | (k, w) :: rest, key, key2, v, h => by
      by_cases hk : k = key
      · subst hk
        simp [pInsert, pLookup, h]
      · simp [pInsert, pLookup, hk, pLookup_pInsert_ne rest key key2 v h]

/-! ## configureTool policy lemmas -/

theorem configureCollection_pinned (cfg : StaticConfig) (params : Params)
    (h : cfg.localRecallCollection ≠ "") :
    pLookup (configureCollection cfg params) "collection_name" =
      some (GoValue.str cfg.localRecallCollection) := by
  simp [configureCollection, h, pLookup_pInsert_self]

theorem configureParams_pinned (cfg : StaticConfig) (params : Params)
    (h : cfg.localRecallCollection ≠ "") :
    pLookup (configureParams cfg params) "collection_name" =
      some (GoValue.str cfg.localRecallCollection) :=
  configureCollection_pinned cfg _ h

theorem configureParams_lookup_other (cfg : StaticConfig) (params : Params)
    (key : String) (h1 : key ≠ "format") (h2 : key ≠ "collection_name") :
    pLookup (configureParams cfg params) key = pLookup params key := by
  unfold configureParams configureCollection configureFormat
  split_ifs with hc hf hf <;>
    simp [pLookup_pInsert_ne _ _ _ _ (Ne.symm h1),
      pLookup_pInsert_ne _ _ _ _ (Ne.symm h2)]

theorem goTrunc_intCast (n : Int) : goTrunc ((n : Int) : Rat) = n := by
  simp [goTrunc, Rat.num_intCast, Rat.den_intCast, Int.tdiv_one]

/-! ## Claim theorems -/

/-- C1: for every gateway configured with a pinned collection and every
caller-supplied parameter map — including one carrying a different
`collection_name` — the parameter map the dispatcher passes to the tool
handler has `collection_name` equal to the pinned collection: the pinned
value overrides any caller-supplied value, it is not merely a default for an
absent one. -/
theorem pinned_collection_always_overrides (cfg : StaticConfig)
    (hpin : cfg.localRecallCollection ≠ "") (params : Params) :
    pLookup (configureParams cfg params) "collection_name" =
      some (GoValue.str cfg.localRecallCollection) :=
  configureParams_pinned cfg params hpin

/-- Witness for C1: a gateway pinned to collection `kb` receives a call that
carries the attacker-supplied collection `other`; the handler still sees
`kb`. -/
theorem pinned_collection_always_overrides_witness :
    pLookup
      (configureParams
        { listOutput := "json", localRecallCollection := "kb",
          enabledTools := [], disabledTools := [] }
        [("collection_name", GoValue.str "other")])
      "collection_name" = some (GoValue.str "kb") :=
  pinned_collection_always_overrides
    { listOutput := "json", localRecallCollection := "kb",
      enabledTools := [], disabledTools := [] }
    (by decide) [("collection_name", GoValue.str "other")]

/-- C3: enablement precedence of `shouldEnableTool` — a name in the disabled
list is disabled even when it is also in the enabled list; with a non-empty
enabled list a name absent from it is disabled even when also absent from
the disabled list; a name is enabled otherwise. -/
theorem shouldEnableTool_precedence (cfg : StaticConfig) (n : String) :
    (n ∈ cfg.disabledTools → shouldEnableTool cfg n = false) ∧
    (cfg.enabledTools ≠ [] → n ∉ cfg.enabledTools → shouldEnableTool cfg n = false) ∧
    (n ∉ cfg.disabledTools → (cfg.enabledTools = [] ∨ n ∈ cfg.enabledTools) →
      shouldEnableTool cfg n = true) := by
  have hdis : cfg.disabledTools.contains n = true ↔ n ∈ cfg.disabledTools :=
    List.elem_iff
  have hen : cfg.enabledTools.contains n = true ↔ n ∈ cfg.enabledTools :=
    List.elem_iff
  refine ⟨fun hd => ?_, fun hne hn => ?_, fun hd he => ?_⟩
  · simp only [shouldEnableTool]
    rw [if_pos (hdis.mpr hd)]
  · simp only [shouldEnableTool]
    cases hdc : cfg.disabledTools.contains n with
    | true => simp
    | false =>
        rw [if_neg (by simp : ¬false = true), if_pos (List.length_pos.mpr hne),
          ← Bool.not_eq_true, hen]
        exact hn
  · rcases he with he | he
    · simp [shouldEnableTool, hd, he]
    · simp [shouldEnableTool, hd, he]

/-- C7: the gateway result wrapping of `registerTool` and `NewTextResult` is
total and never aborts — a handler error becomes a text result flagged as an
error and carrying the error message, a handler success becomes an unflagged
text result carrying the output, and in both cases the pair is returned with
a nil protocol-level error through the same channel. -/
theorem result_wrapping_total (handler : Params → String × Option String)
    (params : Params) :
    (dispatchToolCall handler params).2 = none ∧
    (∀ e, (handler params).2 = some e →
      (dispatchToolCall handler params).1 =
        { isError := true, content := [{ contentType := "text", text := e }] }) ∧
    ((handler params).2 = none →
      (dispatchToolCall handler params).1 =
        { isError := false,
          content := [{ contentType := "text", text := (handler params).1 }] }) := by
  refine ⟨rfl, fun e he => ?_, fun hn => ?_⟩
  · simp [dispatchToolCall, NewTextResult, he]
  · simp [dispatchToolCall, NewTextResult, hn]

/-- C10: optional-parameter extraction is total and never produces an error —
`GetStringParam` returns the caller-supplied default whenever the key is
absent or its value is not a string, and `GetIntParam` returns the
caller-supplied default whenever the key is absent or its value is none of
int, int64, float64, or a string from which an integer can be scanned; a
wrongly-typed optional value is silently replaced by the default. -/
theorem optional_param_extraction_total (params : Params) (key : String)
    (ds : String) (di : Int) :
    (pLookup params key = none →
      GetStringParam params key ds = ds ∧ GetIntParam params key di = di) ∧
    (∀ v, pLookup params key = some v → (∀ s, v ≠ GoValue.str s) →
      GetStringParam params key ds = ds) ∧
    (∀ v, pLookup params key = some v →
      (∀ n, v ≠ GoValue.intV n) → (∀ n, v ≠ GoValue.int64V n) →
      (∀ q, v ≠ GoValue.float64V q) →
      (∀ s, v = GoValue.str s → goSscanInt s = none) →
      GetIntParam params key di = di) := by
  refine ⟨fun h => ⟨?_, ?_⟩, fun v hv hns => ?_, fun v hv hni hni64 hnf hs => ?_⟩
  · simp [GetStringParam, h]
  · simp [GetIntParam, h]
  · cases v with
    | str s => exact absurd rfl (hns s)
    | _ => simp [GetStringParam, hv]
  · cases v with
    | intV n => exact absurd rfl (hni n)
    | int64V n => exact absurd rfl (hni64 n)
    | float64V q => exact absurd rfl (hnf q)
    | str s => simp [GetIntParam, hv, hs s rfl]
    | _ => simp [GetIntParam, hv]

/-- C6: `parseAPIResponse` returns an error exactly when the body does not
decode as the envelope (the error carrying the status code and the body
length, never the body), or the decoded envelope has `success` false with no
error and no data (a structurally invalid response), or has `success` false
otherwise (an application error whose message combines code, message and —
when non-empty — details); in all remaining cases it returns the decoded
envelope. -/
theorem parseAPIResponse_classification (body : Body) (st : Int) :
    (bodyDecode body = none →
      parseAPIResponse body st = .error (.decodeFailure st body.length)) ∧
    (∀ resp, bodyDecode body = some resp →
      (resp.success = false → resp.error = none → resp.data = none →
        parseAPIResponse body st = .error .invalidResponse) ∧
      (resp.success = false → ¬(resp.error = none ∧ resp.data = none) →
        parseAPIResponse body st =
          .error (.apiError (apiErrorMessage resp.error))) ∧
      (resp.success = true → parseAPIResponse body st = .ok resp)) := by
  refine ⟨fun h => ?_,
    fun resp h => ⟨fun hs he hd => ?_, fun hs hne => ?_, fun hs => ?_⟩⟩
  · simp [parseAPIResponse, h]
  · simp [parseAPIResponse, h, hs, he, hd]
  · have hcond :
        ¬(resp.success = false ∧ resp.error.isNone = true ∧ resp.data.isNone = true) := by
      rintro ⟨-, h1, h2⟩
      exact hne ⟨Option.isNone_iff_eq_none.mp h1, Option.isNone_iff_eq_none.mp h2⟩
    simp only [parseAPIResponse, h]
    rw [if_neg hcond, if_pos hs]
  · simp [parseAPIResponse, h, hs]

/-- C8: an `add_document` invocation whose parameters set both `file_path`
and `file_content` to non-empty strings fails with a parameter error, before
any local file read or remote request. -/
theorem add_document_both_sources_param_error (params : Params) (p c : String)
    (hp : pLookup params "file_path" = some (GoValue.str p)) (hp0 : p ≠ "")
    (hc : pLookup params "file_content" = some (GoValue.str c)) (hc0 : c ≠ "") :
    ∃ msg, AddDocumentHandlerStep params = .paramError msg := by
  rcases hreq : RequireStringParam params "filename" with e | filename
  · exact ⟨e, by simp [AddDocumentHandlerStep, hreq]⟩
  · refine ⟨"cannot specify both file_path and file_content", ?_⟩
    have h1 : GetStringParam params "file_path" "" = p := by
      simp [GetStringParam, hp]
    have h2 : GetStringParam params "file_content" "" = c := by
      simp [GetStringParam, hc]
    simp [AddDocumentHandlerStep, hreq, h1, h2, hp0, hc0]

/-- Witness for C8: uploading with `filename`, a non-empty `file_path` and a
non-empty `file_content` at once is rejected as a parameter error. -/
theorem add_document_both_sources_param_error_witness :
    ∃ msg, AddDocumentHandlerStep
      [("filename", GoValue.str "a.txt"), ("file_path", GoValue.str "/tmp/a"),
        ("file_content", GoValue.str "hello")] = .paramError msg :=
  add_document_both_sources_param_error _ "/tmp/a" "hello" rfl (by decide) rfl
    (by decide)

/-- C5 divergence, evaluated on the failing input: with no pinned collection
configured, a `search` invocation that supplies `query` but no
`collection_name` is not rejected with a parameter error — the handler
proceeds to the remote call, targeting the empty collection name. -/
theorem search_missing_collection_calls_remote :
    SearchHandlerRequest [("query", GoValue.str "invoice")] =
      .remoteCall
        { collection := "", query := "invoice", maxResults := 5, opts := none } := by
  rfl

/-- C2: search-shape tolerance — a bare-array body yields a result whose
`count` equals the length of its `results` (the decoded records), while a
non-array body is decoded as the envelope and an explicit `count` carried by
the envelope `data` is returned verbatim, even when it differs from the
length of the results array; the shape is detected from the body rather than
assumed. -/
theorem search_shape_tolerance (q : String) (m : Int) (body : Body) (st : Int) :
    (∀ items, body.json = some (GoValue.arrV items) →
      searchDecodeBody q m body st =
        .ok { query := q, maxResults := m, results := collectRecords items,
              count := ((collectRecords items).length : Int) }) ∧
    (∀ resp data n,
      (∀ items, body.json ≠ some (GoValue.arrV items)) →
      parseAPIResponse body st = .ok resp →
      resp.data = some (GoValue.objV data) →
      pLookup data "count" = some (GoValue.float64V ((n : Int) : Rat)) →
      searchDecodeBody q m body st = .ok (searchEnvelopeResult data) ∧
        (searchEnvelopeResult data).count = n) := by
  constructor
  · intro items h
    simp [searchDecodeBody, h]
  · intro resp data n hne hp hd hcount
    refine ⟨?_, ?_⟩
    · cases hb : body.json with
      | none => simp [searchDecodeBody, hb, hp, getDataMap, hd]
      | some v =>
          cases v <;> first
            | exact absurd hb (hne _)
            | simp [searchDecodeBody, hb, hp, getDataMap, hd]
    · simp [searchEnvelopeResult, getIntField, hcount, goTrunc_intCast]

/-- Caller parameters of the C9 scenario: `query` is `invoice` and
`max_results` is the JSON number 0. -/
def c9CallerParams : Params :=
  [("query", GoValue.str "invoice"), ("max_results", GoValue.float64V 0)]

/-- C9: on a pinned-collection gateway a search invocation with
`query = invoice` and `max_results = 0` produces an outbound request whose
`max_results` is 5 (zero replaced by the default) and whose target
collection is the pinned name, and a bare-array upstream response of two
records yields a result with count 2 and those two records. -/
theorem pinned_search_scenario (cfg : StaticConfig)
    (hpin : cfg.localRecallCollection ≠ "")
    (r1 r2 : List (String × GoValue)) (len : Nat) :
    ∃ req, SearchHandlerRequest (configureParams cfg c9CallerParams) =
        HandlerStep.remoteCall req ∧
      req.collection = cfg.localRecallCollection ∧ req.query = "invoice" ∧
      req.maxResults = 5 ∧
      searchDecodeBody req.query req.maxResults
          ⟨len, some (GoValue.arrV [GoValue.objV r1, GoValue.objV r2])⟩ 200 =
        .ok { query := "invoice", maxResults := 5, results := [r1, r2],
              count := 2 } := by
  have hq : pLookup (configureParams cfg c9CallerParams) "query" =
      some (GoValue.str "invoice") := by
    rw [configureParams_lookup_other cfg _ _ (by decide) (by decide)]
    rfl
  have hm : pLookup (configureParams cfg c9CallerParams) "max_results" =
      some (GoValue.float64V 0) := by
    rw [configureParams_lookup_other cfg _ _ (by decide) (by decide)]
    rfl
  have hmin : pLookup (configureParams cfg c9CallerParams) "min_similarity" = none := by
    rw [configureParams_lookup_other cfg _ _ (by decide) (by decide)]
    rfl
  have hfil : pLookup (configureParams cfg c9CallerParams) "filters" = none := by
    rw [configureParams_lookup_other cfg _ _ (by decide) (by decide)]
    rfl
  have hcol := configureParams_pinned cfg c9CallerParams hpin
  have hg : GetStringParam (configureParams cfg c9CallerParams) "query" "" = "invoice" := by
    simp [GetStringParam, hq]
  have hgc : GetStringParam (configureParams cfg c9CallerParams) "collection_name" "" =
      cfg.localRecallCollection := by
    simp [GetStringParam, hcol]
  have hgm : GetIntParam (configureParams cfg c9CallerParams) "max_results" 5 = 0 := by
    simp only [GetIntParam, hm]
    decide
  have hgf : GetFloat64Param (configureParams cfg c9CallerParams) "min_similarity" 0 = 0 := by
    simp [GetFloat64Param, hmin]
  have hgmap : GetStringMapParam (configureParams cfg c9CallerParams) "filters" = [] := by
    simp [GetStringMapParam, hfil]
  have hreq : SearchHandlerRequest (configureParams cfg c9CallerParams) =
      HandlerStep.remoteCall
        { collection := cfg.localRecallCollection, query := "invoice",
          maxResults := 5, opts := none } := by
    simp [SearchHandlerRequest, hg, hgc, hgm, hgf, hgmap, clientSearchRequest]
  refine ⟨_, hreq, rfl, rfl, rfl, ?_⟩
  simp [searchDecodeBody, collectRecords]

/-- Witness for C9: the gateway pinned to collection `kb`, two concrete
result records and a body length of 17. -/
theorem pinned_search_scenario_witness :
    ∃ req, SearchHandlerRequest (configureParams
        { listOutput := "json", localRecallCollection := "kb",
          enabledTools := [], disabledTools := [] } c9CallerParams) =
        HandlerStep.remoteCall req ∧
      req.collection = "kb" ∧ req.query = "invoice" ∧ req.maxResults = 5 ∧
      searchDecodeBody req.query req.maxResults
          ⟨17, some (GoValue.arrV [GoValue.objV [("ID", GoValue.str "1")],
            GoValue.objV [("ID", GoValue.str "2")]])⟩ 200 =
        .ok { query := "invoice", maxResults := 5,
              results := [[("ID", GoValue.str "1")], [("ID", GoValue.str "2")]],
              count := 2 } :=
  pinned_search_scenario
    { listOutput := "json", localRecallCollection := "kb",
      enabledTools := [], disabledTools := [] }
    (by decide) [("ID", GoValue.str "1")] [("ID", GoValue.str "2")] 17

/-! ## Catalog lemmas -/

theorem buildCollectionTool_name (dc : String) (d : CollectionToolDef) :
    (buildCollectionTool dc d).tool.name = d.name := rfl

theorem buildCollectionTool_handlerId (dc : String) (d : CollectionToolDef) :
    (buildCollectionTool dc d).handler = d.handler := rfl

theorem buildCollectionTool_isolated (dc : String) (h : dc ≠ "") (d : CollectionToolDef) :
    (buildCollectionTool dc d).tool.description =
      d.descDefault ++ (" \x27" ++ dc ++ "\x27") ∧
    (buildCollectionTool dc d).tool.inputSchema.properties = d.props ∧
    (buildCollectionTool dc d).tool.inputSchema.required = d.required := by
  simp [buildCollectionTool, h, String.append_assoc]

theorem buildCollectionTool_open (d : CollectionToolDef) :
    (buildCollectionTool "" d).tool.inputSchema.properties =
      pInsert d.props "collection_name"
        (schemaProp "string" "The name of the collection") ∧
    (buildCollectionTool "" d).tool.inputSchema.required =
      "collection_name" :: d.required := by
  simp [buildCollectionTool]

theorem collectionToolDefs_facts :
    ∀ d ∈ collectionToolDefs,
      d.name ∉ adminToolNames ∧
      "collection_name" ∉ d.required ∧
      (pLookup d.props "collection_name").isNone = true := by
  decide

/-- C4: the catalog produced by `GetTools` contains the three
collection-admin tools exactly when no collection is pinned; every
collection-scoped tool carries a required `collection_name` string parameter
in its schema exactly when no collection is pinned; and when a collection is
pinned, `collection_name` is omitted from every schema and the pinned name
appears at the end of every description. -/
theorem catalog_isolation_structure (dc : String) :
    ((∀ n ∈ adminToolNames, ∃ t ∈ GetTools dc, t.tool.name = n) ↔ dc = "") ∧
    (∀ t ∈ GetTools dc, t.tool.name ∉ adminToolNames →
      (("collection_name" ∈ t.tool.inputSchema.required ∧
          pLookup t.tool.inputSchema.properties "collection_name" =
            some (schemaProp "string" "The name of the collection")) ↔ dc = "")) ∧
    (dc ≠ "" → ∀ t ∈ GetTools dc,
      "collection_name" ∉ t.tool.inputSchema.required ∧
      pLookup t.tool.inputSchema.properties "collection_name" = none ∧
      ∃ p, t.tool.description = p ++ (" \x27" ++ dc ++ "\x27")) := by
  refine ⟨⟨fun hall => ?_, fun h n hn => ?_⟩, fun t ht hnadmin => ?_, fun hdc t ht => ?_⟩
  · by_contra hne
    obtain ⟨t, ht, hname⟩ := hall "create_collection" (by decide)
    rw [GetTools, if_neg hne, List.append_nil] at ht
    obtain ⟨d, hd, rfl⟩ := List.mem_map.mp ht
    rw [buildCollectionTool_name] at hname
    exact (collectionToolDefs_facts d hd).1
      (hname ▸ (by decide : ("create_collection" : String) ∈ adminToolNames))
  · subst h
    have hex : ∃ t ∈ adminTools, t.tool.name = n := by
      simp only [adminToolNames, List.mem_cons, List.not_mem_nil, or_false] at hn
      rcases hn with rfl | rfl | rfl <;> decide
    obtain ⟨t, htm, hname⟩ := hex
    exact ⟨t, by simp [GetTools, htm], hname⟩
  · by_cases hdc : dc = ""
    · subst hdc
      simp only [GetTools, if_pos rfl] at ht
      rcases List.mem_append.mp ht with hmem | hmem
      · obtain ⟨d, hd, rfl⟩ := List.mem_map.mp hmem
        obtain ⟨hprops, hreq⟩ := buildCollectionTool_open d
        rw [hprops, hreq]
        exact ⟨fun _ => rfl,
          fun _ => ⟨List.mem_cons_self _ _, pLookup_pInsert_self _ _ _⟩⟩
      · exfalso
        apply hnadmin
        fin_cases hmem <;> decide
    · simp only [GetTools, if_neg hdc, List.append_nil] at ht
      obtain ⟨d, hd, rfl⟩ := List.mem_map.mp ht
      obtain ⟨hdesc, hprops, hreq⟩ := buildCollectionTool_isolated dc hdc d
      rw [hprops, hreq]
      exact ⟨fun hc => absurd hc.1 (collectionToolDefs_facts d hd).2.1,
        fun hc => absurd hc hdc⟩
  · simp only [GetTools, if_neg hdc, List.append_nil] at ht
    obtain ⟨d, hd, rfl⟩ := List.mem_map.mp ht
    obtain ⟨hdesc, hprops, hreq⟩ := buildCollectionTool_isolated dc hdc d
    refine ⟨by rw [hreq]; exact (collectionToolDefs_facts d hd).2.1, ?_,
      ⟨d.descDefault, hdesc⟩⟩
    rw [hprops]
    exact Option.isNone_iff_eq_none.mp (collectionToolDefs_facts d hd).2.2

/-! ## Concrete evaluations of the embedded definitions -/

theorem parseAPIResponse_decode_failure_eval :
    parseAPIResponse ⟨42, none⟩ 404 = .error (.decodeFailure 404 42) := rfl

theorem parseAPIResponse_invalid_eval :
    parseAPIResponse ⟨2, some GoValue.nullV⟩ 200 = .error .invalidResponse := rfl

theorem parseAPIResponse_api_error_eval :
    parseAPIResponse
      ⟨42, some (GoValue.objV
        [("success", GoValue.boolV false),
          ("error", GoValue.objV
            [("code", GoValue.str "NOT_FOUND"),
              ("message", GoValue.str "missing"),
              ("details", GoValue.str "collection x")])])⟩ 404 =
      .error (.apiError "NOT_FOUND: missing - collection x") := rfl

theorem searchDecodeBody_envelope_count_differs_eval :
    searchDecodeBody "q" 5
      ⟨90, some (GoValue.objV
        [("success", GoValue.boolV true),
          ("data", GoValue.objV
            [("query", GoValue.str "q"), ("max_results", GoValue.float64V 5),
              ("results", GoValue.arrV [GoValue.objV [("ID", GoValue.str "1")]]),
              ("count", GoValue.float64V 7)])])⟩ 200 =
      .ok { query := "q", maxResults := 5,
            results := [[("ID", GoValue.str "1")]], count := 7 } := rfl

theorem shouldEnableTool_both_lists_eval :
    shouldEnableTool
      { listOutput := "json", localRecallCollection := "",
        enabledTools := ["search"], disabledTools := ["search"] } "search" = false := rfl
